import Mathlib

/-!
Verification of the hydra-express lifecycle core (latest revision of
`index.js`, the `HydraExpress` / `IHydraExpress` classes).

The JavaScript source is shallowly embedded: each method of the
`HydraExpress` class is translated into a Lean function that returns the
list of observable events (calls into the discovery client `hydra`, the
express `app`, the logger, `process` level actions) that the method
performs, in the order the JavaScript performs them.  Configuration
objects are translated into records in which a field of type `Option`
models a possibly-`undefined` JavaScript property.
-/

namespace HydraExpress

/-- Position of the first occurrence of `a` in `l` (length of `l` when
absent).  Used to state ordering facts about event traces. -/
def pos {α : Type} [DecidableEq α] : List α → α → Nat
  | [], _ => 0
  | x :: xs, a => if x = a then 0 else pos xs a + 1

/-- JavaScript `x || d` for a possibly-undefined string property:
`undefined` and the empty string are falsy. -/
def jsOrStr : Option String → String → String
  | none, d => d
  | some s, d => if s = "" then d else s

/-- JavaScript `x || d` for a possibly-undefined numeric property:
`undefined` and `0` are falsy. -/
def jsOrNat : Option Nat → Nat → Nat
  | none, d => d
  | some n, d => if n = 0 then d else n

/-! ## The logger (`HydraExpress.log`, index.js lines 1699-1731) -/

/-- Observable effects of one `log` call: an entry handed to the local
`appLogger` at some level, or a `hydra.sendToHealthLog` call. -/
inductive LogEv where
  | appLog (level : String) (event : String) (message : String)
  | healthLog (severity : String) (message : String) (suppress : Bool)
deriving DecidableEq, Repr

/-- Embeds `HydraExpress.log(type, message)`.  The JavaScript `switch`
on `type` sends `fatal` messages to `appLogger.fatal` plus
`hydra.sendToHealthLog('fatal', ...)`, sends `error` messages to
`appLogger.error` plus `hydra.sendToHealthLog('fatal', ...)` (note the
upgraded severity), sends `debug` only to `appLogger.debug`, and any
other type only to `appLogger.info`.  `suppressLogEmit` is `true`. -/
def log (type message : String) : List LogEv :=
  if type = "fatal" then
    [.appLog "fatal" type message, .healthLog "fatal" message true]
  else if type = "error" then
    [.appLog "error" type message, .healthLog "fatal" message true]
  else if type = "debug" then
    [.appLog "debug" type message]
  else
    [.appLog "info" type message]

/-- Recognizes health-log events. -/
def isHealthLog : LogEv → Bool
  | .healthLog _ _ _ => true
  | _ => false

/-- C10: a message logged with type `fatal` or `error` is forwarded to
the discovery client health log with severity `fatal` (so an `error`
message is upgraded), and a message of type `debug` or of any other
type produces no health-log call at all. -/
theorem c10_health_log_forwarding (type message : String) :
    (log type message).filter isHealthLog =
      if type = "fatal" ∨ type = "error"
      then [.healthLog "fatal" message true] else [] := by
  unfold log
  split_ifs with h1 h2 h3 <;> simp_all [isHealthLog, List.filter]

/-! ## Promise.series (index.js lines 1465-1470)

The source is
`Promise.series = (iterable, action) => Promise.mapSeries(iterable.map(action), ...)`.
`iterable.map(action)` is the synchronous `Array.prototype.map`: it
invokes `action` on every element, in array order, before
`Promise.mapSeries` ever sees the resulting promise array.
`Promise.mapSeries` then awaits those already-running promises in index
order, stopping at (and propagating) the first rejection. -/

/-- Trace events of one `Promise.series` run: `call i` marks the
synchronous invocation `action(iterable[i])`; `settle i` marks
`Promise.mapSeries` observing the settlement of the promise returned by
the `i`-th call. -/
inductive SE where
  | call (i : Nat)
  | settle (i : Nat)
deriving DecidableEq, Repr

/-- Indices of the promises whose settlement `Promise.mapSeries`
observes when the promise results are `rs`, numbering from `i`: it
awaits each in order and stops after the first rejected one. -/
def settleIdx : List (Except String Unit) → Nat → List Nat
  | [], _ => []
  | .ok _ :: rest, i => i :: settleIdx rest (i + 1)
  | .error _ :: _, i => [i]

/-- First rejection among the promise results, in await order; this is
the rejection the `Promise.series` promise propagates. -/
def seriesError : List (Except String Unit) → Option String
  | [] => none
  | .ok _ :: rest => seriesError rest
  | .error e :: _ => some e

/-- Embeds `Promise.series(iterable, action)`: the full block of calls
made eagerly by `iterable.map(action)`, followed by the settlements
observed in order by `Promise.mapSeries`. -/
def promiseSeriesEvents (rs : List (Except String Unit)) : List SE :=
  (List.range rs.length).map SE.call ++ (settleIdx rs 0).map SE.settle

/-- Every index recorded by `settleIdx rs i` is at least `i`. -/
theorem settleIdx_ge (rs : List (Except String Unit)) (i : Nat) :
    ∀ x ∈ settleIdx rs i, i ≤ x := by
  induction rs generalizing i with
  | nil => simp [settleIdx]
  | cons r rest ih =>
    cases r with
    | ok _ =>
      intro x hx
      rcases List.mem_cons.mp hx with h | h
      · omega
      · have := ih (i + 1) x h
        omega
    | error e => intro x hx; simp [settleIdx] at hx; omega

/-- The settlement indices are strictly increasing: `Promise.mapSeries`
observes the settlements in registration order. -/
theorem settleIdx_pairwise (rs : List (Except String Unit)) (i : Nat) :
    List.Pairwise (· < ·) (settleIdx rs i) := by
  induction rs generalizing i with
  | nil => simp [settleIdx]
  | cons r rest ih =>
    cases r with
    | ok _ =>
      refine List.pairwise_cons.mpr ⟨?_, ih (i + 1)⟩
      intro x hx
      have := settleIdx_ge rest (i + 1) x hx
      omega
    | error e => simp [settleIdx]

/-! ## Plugins (index.js lines 1517-1536, 1741-1762) -/

/-- A registered plugin, abstracted by the outcomes of its two
lifecycle hooks: the promise returned by `setConfig` and the promise
returned by `onServiceReady`. -/
structure Plugin where
  name : String
  setConfigResult : Except String Unit
  onReadyResult : Except String Unit
deriving Repr

/-- The ordering property the specification asserts for plugin hooks
run through `Promise.series`: each hook promise is awaited to
completion before the next hook is started. -/
def eachSettledBeforeNextCall (rs : List (Except String Unit)) : Prop :=
  ∀ i, i + 1 < rs.length →
    pos (promiseSeriesEvents rs) (SE.settle i) <
      pos (promiseSeriesEvents rs) (SE.call (i + 1))

/-- C2 counterexample: with two registered plugins whose hooks both
succeed, the second hook is started (by the eager `iterable.map(action)`)
before the first settlement is awaited, so the claimed
awaited-before-next-start ordering fails. -/
theorem c2_counterexample :
    ¬ eachSettledBeforeNextCall [Except.ok (), Except.ok ()] := by
  intro h
  exact absurd (h 0 (by decide)) (by decide)

/-- C2 as amended: for every plugin sequence, `Promise.series` starts
the `setConfig` hooks in registration order (the trace position of the
`k`-th call is `k`), every settlement is observed only after all hooks
have been started, and the settlements are observed in registration
order.  The hooks therefore run concurrently; only the observation of
their results is sequential. -/
theorem c2_hooks_start_eagerly_in_order (ps : List Plugin) :
    (∀ k, k < ps.length →
      (promiseSeriesEvents (ps.map Plugin.setConfigResult))[k]? = some (SE.call k)) ∧
    (∀ p i, (promiseSeriesEvents (ps.map Plugin.setConfigResult))[p]? = some (SE.settle i) →
      ps.length ≤ p) ∧
    List.Pairwise (· < ·) (settleIdx (ps.map Plugin.setConfigResult) 0) := by
  have hcall : ∀ k, k < ps.length →
      (promiseSeriesEvents (ps.map Plugin.setConfigResult))[k]? = some (SE.call k) := by
    intro k hk
    have hk2 : k < (ps.map Plugin.setConfigResult).length := by simpa using hk
    have hlen : k < ((List.range (ps.map Plugin.setConfigResult).length).map SE.call).length := by
      simpa using hk2
    rw [promiseSeriesEvents, List.getElem?_append_left hlen, List.getElem?_map,
      List.getElem?_range hk2]
    rfl
  refine ⟨hcall, ?_, settleIdx_pairwise _ 0⟩
  intro p i hp
  by_contra hlt
  push_neg at hlt
  have := hcall p hlt
  rw [this] at hp
  exact absurd (Option.some.inj hp) (by intro h; cases h)

/-- C2 witness: instantiating the amended theorem at two concrete
plugins. -/
theorem c2_hooks_start_eagerly_in_order_witness :
    (promiseSeriesEvents ([⟨"alpha", Except.ok (), Except.ok ()⟩,
        ⟨"beta", Except.ok (), Except.ok ()⟩].map Plugin.setConfigResult))[1]? =
      some (SE.call 1) := by
  exact (c2_hooks_start_eagerly_in_order
    [⟨"alpha", Except.ok (), Except.ok ()⟩, ⟨"beta", Except.ok (), Except.ok ()⟩]).1 1 (by decide)

/-! ## HydraExpress.start (index.js lines 1741-1762) -/

/-- Outcomes of the discovery-client calls made during `start`. -/
structure HydraM where
  initResult : Except String Unit
  registerServiceResult : Except String Unit
deriving Repr

/-- Observable events of one `start` run. -/
inductive StEv where
  | hydraInitCall
  | setConfigCall (i : Nat)
  | setConfigSettled (i : Nat)
  | hydraRegisterServiceCall
  | logStart
  | logInfo
  | initServiceRun
  | cleanupHandlerInstall
  | onReadyCall (i : Nat)
  | onReadySettled (i : Nat)
  | delaySettled
  | resolveCalled
  | rejectCalled (msg : String)
  | logError (msg : String)
  | emitCleanup
deriving DecidableEq, Repr

/-- Tags a `Promise.series` event as belonging to the `setConfig`
phase. -/
def seSetConfig : SE → StEv
  | .call i => .setConfigCall i
  | .settle i => .setConfigSettled i

/-- Tags a `Promise.series` event as belonging to the `onServiceReady`
phase. -/
def seOnReady : SE → StEv
  | .call i => .onReadyCall i
  | .settle i => .onReadySettled i

/-- Embeds `HydraExpress.start(resolve, _reject)`.  The promise chain
is `hydra.init` then `Promise.series(registeredPlugins, setConfig)`
then `hydra.registerService` then (log twice, `initService`,
`Promise.series(registeredPlugins, onServiceReady)`) then
`Promise.delay(2000)` then `resolve(serviceInfo)`, with a single
`.catch` that logs the error and emits the `cleanup` process event.
The `_reject` parameter is never invoked.  The registration of the
`process.on('cleanup', ...)` handler happens inside `initService`
(index.js line 1789) and is recorded as `cleanupHandlerInstall`:
before `initService` has run, an emitted `cleanup` event has no
listener. -/
def start (hm : HydraM) (ps : List Plugin) : List StEv :=
  StEv.hydraInitCall ::
    match hm.initResult with
    | .error e => [.logError e, .emitCleanup]
    | .ok _ =>
      (promiseSeriesEvents (ps.map Plugin.setConfigResult)).map seSetConfig ++
        match seriesError (ps.map Plugin.setConfigResult) with
        | some e => [.logError e, .emitCleanup]
        | none =>
          StEv.hydraRegisterServiceCall ::
            match hm.registerServiceResult with
            | .error e => [.logError e, .emitCleanup]
            | .ok _ =>
              [.logStart, .logInfo, .initServiceRun, .cleanupHandlerInstall] ++
                (promiseSeriesEvents (ps.map Plugin.onReadyResult)).map seOnReady ++
                  match seriesError (ps.map Plugin.onReadyResult) with
                  | some e => [.logError e, .emitCleanup]
                  | none => [.delaySettled, .resolveCalled]

/-- Events produced by the `setConfig` phase are `setConfigCall` or
`setConfigSettled` events. -/
theorem mem_map_seSetConfig {l : List SE} {ev : StEv} (h : ev ∈ l.map seSetConfig) :
    (∃ i, ev = StEv.setConfigCall i) ∨ ∃ i, ev = StEv.setConfigSettled i := by
  rcases List.mem_map.mp h with ⟨x, _, rfl⟩
  cases x with
  | call i => exact Or.inl ⟨i, rfl⟩
  | settle i => exact Or.inr ⟨i, rfl⟩

/-- C3 counterexample: with one registered plugin whose `setConfig`
hook rejects, initialization is not continued in degraded mode: the
init promise is never resolved, the discovery registration step never
runs, and the `cleanup` process event is emitted at a point where no
cleanup handler has ever been installed. -/
theorem c3_counterexample :
    StEv.resolveCalled ∉
        start ⟨Except.ok (), Except.ok ()⟩ [⟨"bad", Except.error "boom", Except.ok ()⟩] ∧
      StEv.hydraRegisterServiceCall ∉
        start ⟨Except.ok (), Except.ok ()⟩ [⟨"bad", Except.error "boom", Except.ok ()⟩] ∧
      StEv.cleanupHandlerInstall ∉
        start ⟨Except.ok (), Except.ok ()⟩ [⟨"bad", Except.error "boom", Except.ok ()⟩] ∧
      StEv.emitCleanup ∈
        start ⟨Except.ok (), Except.ok ()⟩ [⟨"bad", Except.error "boom", Except.ok ()⟩] := by
  decide

/-- C3 as amended: when a plugin `setConfig` hook rejects during init
(and `hydra.init` itself succeeded), the error is logged and the init
promise is never rejected (the `_reject` argument is unused), but the
remaining sequence is aborted rather than continued: the init promise
is never resolved and `hydra.registerService` and `initService` are
never called.  The `.catch` emits the `cleanup` process event, but
the only `process.on('cleanup', ...)` registration lives inside
`initService`, which never ran on this path, so the emitted event has
no listener: no shutdown is performed and the process does not
exit. -/
theorem c3_setconfig_rejection_aborts (hm : HydraM) (ps : List Plugin) (e : String)
    (hok : hm.initResult = .ok ())
    (herr : seriesError (ps.map Plugin.setConfigResult) = some e) :
    StEv.logError e ∈ start hm ps ∧
    StEv.emitCleanup ∈ start hm ps ∧
    StEv.resolveCalled ∉ start hm ps ∧
    (∀ m, StEv.rejectCalled m ∉ start hm ps) ∧
    StEv.hydraRegisterServiceCall ∉ start hm ps ∧
    StEv.initServiceRun ∉ start hm ps ∧
    StEv.cleanupHandlerInstall ∉ start hm ps := by
  have hstart : start hm ps =
      StEv.hydraInitCall ::
        ((promiseSeriesEvents (ps.map Plugin.setConfigResult)).map seSetConfig ++
          [.logError e, .emitCleanup]) := by
    rw [start, hok, herr]
  have habsent : ∀ ev : StEv, ev ≠ StEv.hydraInitCall → ev ≠ StEv.logError e →
      ev ≠ StEv.emitCleanup → (∀ i, ev ≠ StEv.setConfigCall i) →
      (∀ i, ev ≠ StEv.setConfigSettled i) → ev ∉ start hm ps := by
    intro ev h1 h2 h3 h4 h5 hmem
    rw [hstart] at hmem
    rcases List.mem_cons.mp hmem with h | h
    · exact h1 h
    rcases List.mem_append.mp h with h | h
    · rcases mem_map_seSetConfig h with ⟨i, hi⟩ | ⟨i, hi⟩
      · exact h4 i hi
      · exact h5 i hi
    · rcases List.mem_cons.mp h with h | h
      · exact h2 h
      rcases List.mem_cons.mp h with h | h
      · exact h3 h
      · simp at h
  refine ⟨by rw [hstart]; simp, by rw [hstart]; simp, ?_, ?_, ?_, ?_, ?_⟩
  · exact habsent _ (by simp) (by simp) (by simp) (fun i => by simp) (fun i => by simp)
  · intro m
    exact habsent _ (by simp) (by simp) (by simp) (fun i => by simp) (fun i => by simp)
  · exact habsent _ (by simp) (by simp) (by simp) (fun i => by simp) (fun i => by simp)
  · exact habsent _ (by simp) (by simp) (by simp) (fun i => by simp) (fun i => by simp)
  · exact habsent _ (by simp) (by simp) (by simp) (fun i => by simp) (fun i => by simp)

/-- C3 witness: the amended theorem applied to a concrete failing
plugin. -/
theorem c3_setconfig_rejection_aborts_witness :
    StEv.logError "boom" ∈
        start ⟨Except.ok (), Except.ok ()⟩ [⟨"bad2", Except.error "boom", Except.ok ()⟩] ∧
      StEv.resolveCalled ∉
        start ⟨Except.ok (), Except.ok ()⟩ [⟨"bad2", Except.error "boom", Except.ok ()⟩] ∧
      StEv.cleanupHandlerInstall ∉
        start ⟨Except.ok (), Except.ok ()⟩ [⟨"bad2", Except.error "boom", Except.ok ()⟩] := by
  have h := c3_setconfig_rejection_aborts ⟨Except.ok (), Except.ok ()⟩
    [⟨"bad2", Except.error "boom", Except.ok ()⟩] "boom" rfl (by decide)
  exact ⟨h.1, h.2.2.1, h.2.2.2.2.2.2⟩

/-! ## Configuration model and validation (index.js lines 1538-1632) -/

/-- The `redis` connection sub-block of the `hydra` block. -/
structure RedisBlock where
  url : String
  port : Nat
deriving DecidableEq, Repr

/-- The `hydra` (discovery) sub-block of a service configuration.  A
field of type `Option` models a property that may be absent
(JavaScript `undefined`). -/
structure HydraConfig where
  redis : Option RedisBlock
  serviceName : Option String
  serviceDescription : Option String
  serviceIP : Option String
  servicePort : Option Nat
  serviceType : Option String
deriving DecidableEq, Repr

/-- A service configuration object as consumed by `_init`.  The two
callback properties are modeled by their presence (a function value is
always truthy in JavaScript). -/
structure Config where
  hydra : Option HydraConfig
  registerRoutesCallback : Bool
  registerMiddlewareCallback : Bool
  environment : Option String
  version : Option String
deriving DecidableEq, Repr

/-- Embeds `HydraExpress.validateConfig`.  The required-member schema
is `hydra.serviceName`, `hydra.serviceDescription` and
`registerRoutesCallback`; for an object-valued schema entry whose block
is present, each missing sub-field is reported as `parent.child`, and
the iteration order is the schema declaration order. -/
def validateConfig (config : Config) : List String :=
  (match config.hydra with
   | none => ["hydra"]
   | some h =>
     (if h.serviceName = none then ["hydra.serviceName"] else []) ++
       (if h.serviceDescription = none then ["hydra.serviceDescription"] else [])) ++
    (if config.registerRoutesCallback then [] else ["registerRoutesCallback"])

/-- The defaulting performed by `_init` immediately after the
`hydra`/`redis` block checks and before `validateConfig` is called:
`config.hydra.serviceIP = config.hydra.serviceIP || ''` and likewise
`servicePort || 0` and `serviceType || ''`. -/
def applyHydraDefaults (h : HydraConfig) : HydraConfig :=
  { h with
    serviceIP := some (jsOrStr h.serviceIP "")
    servicePort := some (jsOrNat h.servicePort 0)
    serviceType := some (jsOrStr h.serviceType "") }

/-- Observable events of one `_init` run.  Events of the `start` phase
are embedded through `startEv`; in particular every plugin hook call
and every discovery-client call of a successful init appears only
inside `startEv` events. -/
inductive IEv where
  | assignDefault (field : String)
  | validateRun
  | rejectInit (msg : String)
  | assignEnvDefault
  | hydraLogSubscribe
  | startEv (e : StEv)
deriving DecidableEq, Repr

/-- Continuation of `_init` after `validateConfig` has produced its
missing-field list for the defaulted configuration: reject listing the
missing fields, or reject for a missing `registerRoutesCallback`, or
assign the `environment` default, subscribe to the hydra log stream
and run `start`. -/
def initAfterValidation (config2 : Config) (hm : HydraM) (ps : List Plugin) : List IEv :=
  if validateConfig config2 ≠ [] then
    [.rejectInit ("Config missing fields: " ++
      String.intercalate " " (validateConfig config2))]
  else if config2.registerRoutesCallback = false then
    [.rejectInit "Config missing registerRoutesCallback parameter"]
  else
    [.assignEnvDefault, .hydraLogSubscribe] ++ (start hm ps).map IEv.startEv

/-- Embeds `HydraExpress._init(config)`: reject when the `hydra` block
is absent, then reject when `hydra.redis` is absent, then assign the
three pre-validation defaults, then run `validateConfig` and branch as
in `initAfterValidation`. -/
def _init (config : Config) (hm : HydraM) (ps : List Plugin) : List IEv :=
  match config.hydra with
  | none => [.rejectInit "Config missing hydra block"]
  | some h =>
    match h.redis with
    | none => [.rejectInit "Config missing redis block"]
    | some _ =>
      [.assignDefault "serviceIP", .assignDefault "servicePort",
        .assignDefault "serviceType", .validateRun] ++
        initAfterValidation { config with hydra := some (applyHydraDefaults h) } hm ps

/-- C1: a configuration without the `hydra` block makes `_init` reject
with the single distinguished error `Config missing hydra block`; the
trace consists of that rejection alone, so field-by-field validation
never runs, no missing-field list is produced, and no plugin hook or
discovery-client call (all of which are `startEv` events) is made. -/
theorem c1_missing_hydra_block_rejects_first (config : Config) (hm : HydraM)
    (ps : List Plugin) (h : config.hydra = none) :
    _init config hm ps = [IEv.rejectInit "Config missing hydra block"] ∧
    IEv.validateRun ∉ _init config hm ps ∧
    (∀ e, IEv.startEv e ∉ _init config hm ps) := by
  have hsh : _init config hm ps = [IEv.rejectInit "Config missing hydra block"] := by
    rw [_init, h]
  refine ⟨hsh, ?_, ?_⟩
  · rw [hsh]; simp
  · intro e; rw [hsh]; simp

/-- C1 witness: the theorem applied to a concrete configuration whose
`hydra` property is absent. -/
theorem c1_missing_hydra_block_rejects_first_witness :
    _init ⟨none, true, false, none, none⟩ ⟨Except.ok (), Except.ok ()⟩ [] =
      [IEv.rejectInit "Config missing hydra block"] := by
  exact (c1_missing_hydra_block_rejects_first ⟨none, true, false, none, none⟩
    ⟨Except.ok (), Except.ok ()⟩ [] rfl).1

/-- C4 counterexample: a configuration with the `hydra` and `redis`
blocks present but `hydra.serviceName` missing.  The claim says no
default is assigned before the required-field check, yet the trace
assigns the `serviceIP` default (position 0) strictly before
`validateConfig` runs (position 3), and validation then reports the
missing required field. -/
theorem c4_counterexample :
    pos (_init ⟨some ⟨some ⟨"127.0.0.1", 6379⟩, none, some "x", none, none, none⟩,
          true, false, none, none⟩ ⟨Except.ok (), Except.ok ()⟩ [])
        (IEv.assignDefault "serviceIP") <
      pos (_init ⟨some ⟨some ⟨"127.0.0.1", 6379⟩, none, some "x", none, none, none⟩,
          true, false, none, none⟩ ⟨Except.ok (), Except.ok ()⟩ [])
        IEv.validateRun ∧
    IEv.rejectInit "Config missing fields: hydra.serviceName" ∈
      _init ⟨some ⟨some ⟨"127.0.0.1", 6379⟩, none, some "x", none, none, none⟩,
        true, false, none, none⟩ ⟨Except.ok (), Except.ok ()⟩ [] := by
  decide

/-- C4 as amended: when the `hydra` and `redis` blocks are present, the
`serviceIP`/`servicePort`/`serviceType` defaults (empty string, `0`,
empty string) are assigned strictly before `validateConfig` runs; the
`environment` default (`development`) is assigned only after validation
passes; and when validation fails the missing required fields are still
reported (the pre-validation defaults never target a required field)
and no environment default is assigned. -/
theorem c4_defaulting_order (config : Config) (hm : HydraM) (ps : List Plugin)
    (h : HydraConfig) (hh : config.hydra = some h) (rb : RedisBlock) (hr : h.redis = some rb) :
    pos (_init config hm ps) (IEv.assignDefault "serviceIP") <
      pos (_init config hm ps) IEv.validateRun ∧
    (validateConfig { config with hydra := some (applyHydraDefaults h) } ≠ [] →
      IEv.assignEnvDefault ∉ _init config hm ps ∧
      IEv.rejectInit ("Config missing fields: " ++ String.intercalate " "
          (validateConfig { config with hydra := some (applyHydraDefaults h) })) ∈
        _init config hm ps) ∧
    (validateConfig { config with hydra := some (applyHydraDefaults h) } = [] →
      config.registerRoutesCallback = true →
      pos (_init config hm ps) IEv.validateRun <
        pos (_init config hm ps) IEv.assignEnvDefault) := by
  have hsh : _init config hm ps =
      [IEv.assignDefault "serviceIP", IEv.assignDefault "servicePort",
        IEv.assignDefault "serviceType", IEv.validateRun] ++
        initAfterValidation { config with hydra := some (applyHydraDefaults h) } hm ps := by
    simp only [_init, hh, hr]
  refine ⟨?_, ?_, ?_⟩
  · rw [hsh]; simp [pos]
  · intro hv
    rw [hsh, initAfterValidation, if_pos hv]
    constructor
    · simp
    · simp
  · intro hv hrrc
    rw [hsh, initAfterValidation, if_neg (by simp [hv]), if_neg (by simp [hrrc])]
    simp [pos]

/-- C4 witness: the amended theorem applied to a configuration missing
the required `hydra.serviceName` field. -/
theorem c4_defaulting_order_witness :
    IEv.rejectInit "Config missing fields: hydra.serviceName" ∈
      _init ⟨some ⟨some ⟨"127.0.0.1", 6379⟩, none, some "y", none, none, none⟩,
        true, false, none, none⟩ ⟨Except.ok (), Except.ok ()⟩ [] := by
  exact ((c4_defaulting_order
    ⟨some ⟨some ⟨"127.0.0.1", 6379⟩, none, some "y", none, none, none⟩,
      true, false, none, none⟩ ⟨Except.ok (), Except.ok ()⟩ []
    ⟨some ⟨"127.0.0.1", 6379⟩, none, some "y", none, none, none⟩ rfl
    ⟨"127.0.0.1", 6379⟩ rfl).2.1 (by decide)).2

/-! ## HydraExpress._shutdown (index.js lines 1639-1652) -/

/-- State of the underlying HTTP listener. -/
structure SrvState where
  listening : Bool
deriving DecidableEq, Repr

/-- Observable events of shutdown runs. -/
inductive ShEv where
  | serverCloseCall
  | logErrorShuttingDown
  | hydraShutdownCall
deriving DecidableEq, Repr

/-- Node `net.Server.close(cb)`: the server stops listening and the
callback is invoked once the server winds down, receiving an error
argument when the server was not running.  The callback `_shutdown`
registers takes no parameters and thus ignores that argument. -/
def serverClose (s : SrvState) (cb : Bool → List ShEv) : List ShEv × SrvState :=
  (ShEv.serverCloseCall :: cb (!s.listening), { listening := false })

/-- Embeds `HydraExpress._shutdown()`: unconditionally
`this.server.close(...)` with a callback that logs
`Service is shutting down.` and calls `hydra.shutdown()`, resolving or
rejecting with its outcome.  No field of the instance records that a
shutdown already happened, and no branch inspects one. -/
def _shutdown (s : SrvState) : List ShEv × SrvState :=
  serverClose s (fun _errored => [ShEv.logErrorShuttingDown, ShEv.hydraShutdownCall])

/-- Trace of two consecutive `_shutdown` calls. -/
def shutdownTwice (s : SrvState) : List ShEv :=
  ((_shutdown s).1) ++ ((_shutdown (_shutdown s).2).1)

/-- The idempotence property the specification asserts: a second
`shutdown` call performs no second discovery deregistration. -/
def secondShutdownIsNoOp (s : SrvState) : Prop :=
  (shutdownTwice s).count ShEv.hydraShutdownCall = 1

/-- C5 counterexample: starting from a listening server, calling
`_shutdown` twice produces two `hydra.shutdown()` deregistration
calls, not one. -/
theorem c5_counterexample : ¬ secondShutdownIsNoOp ⟨true⟩ := by
  unfold secondShutdownIsNoOp
  decide

/-- C5 as amended: `_shutdown` has no idempotence guard.  A second
call never throws (the close callback merely ignores the
not-running error Node passes it), but it repeats the full sequence:
two consecutive calls always close the server twice and call
`hydra.shutdown()` (discovery deregistration) twice. -/
theorem c5_no_shutdown_guard (s : SrvState) :
    (shutdownTwice s).count ShEv.hydraShutdownCall = 2 ∧
    (shutdownTwice s).count ShEv.serverCloseCall = 2 ∧
    (_shutdown (_shutdown s).2).1 = (_shutdown s).1 := by
  refine ⟨?_, ?_, ?_⟩ <;> rfl

/-! ## initService middleware installation (index.js lines 1770-1840) -/

/-- The middleware stages installed by `initService`, plus the
invocation of the caller middleware hook. -/
inductive Mw where
  | cors
  | responseTime
  | processIdHeader
  | helmetBaseline
  | hidePoweredBy
  | hsts
  | jsonBodyParser
  | urlencodedBodyParser
  | middlewareCallbackInvoked
  | staticFiles
deriving DecidableEq, Repr

/-- Embeds the middleware installation order of `initService` up to
the creation of the HTTP server: `app.use(cors())`,
`app.use(responseTime())`, the process-id stamping middleware, then
`helmet()`, `helmet.hidePoweredBy(...)`, `helmet.hsts(...)`, then
`bodyParser.json()`, then `bodyParser.urlencoded({extended: false})`,
then `this.registerMiddlewareCallback && this.registerMiddlewareCallback()`
(run exactly when the hook was provided), then
`app.use('/', express.static(...))`. -/
def initServiceMiddleware (hasMiddlewareCallback : Bool) : List Mw :=
  [.cors, .responseTime, .processIdHeader, .helmetBaseline, .hidePoweredBy, .hsts,
    .jsonBodyParser, .urlencodedBodyParser] ++
    (if hasMiddlewareCallback then [.middlewareCallbackInvoked] else []) ++
    [.staticFiles]

/-- The body-parser ordering the specification asserts: the
URL-encoded parser installed before the JSON parser. -/
def urlencodedInstalledBeforeJson : Prop :=
  pos (initServiceMiddleware true) Mw.urlencodedBodyParser <
    pos (initServiceMiddleware true) Mw.jsonBodyParser

/-- C6 counterexample: `initService` installs `bodyParser.json()`
first and `bodyParser.urlencoded(...)` second, so the claimed
URL-encoded-before-JSON ordering fails. -/
theorem c6_counterexample : ¬ urlencodedInstalledBeforeJson := by
  unfold urlencodedInstalledBeforeJson
  decide

/-- C6 as amended: the JSON body parser is installed strictly before
the URL-encoded one; the caller middleware hook, when provided, is
invoked exactly once, after both body parsers and before static-file
serving, and is not invoked at all when absent. -/
theorem c6_middleware_order (hasMiddlewareCallback : Bool) :
    pos (initServiceMiddleware hasMiddlewareCallback) Mw.jsonBodyParser <
      pos (initServiceMiddleware hasMiddlewareCallback) Mw.urlencodedBodyParser ∧
    (initServiceMiddleware true).count Mw.middlewareCallbackInvoked = 1 ∧
    pos (initServiceMiddleware true) Mw.urlencodedBodyParser <
      pos (initServiceMiddleware true) Mw.middlewareCallbackInvoked ∧
    pos (initServiceMiddleware true) Mw.middlewareCallbackInvoked <
      pos (initServiceMiddleware true) Mw.staticFiles ∧
    (initServiceMiddleware false).count Mw.middlewareCallbackInvoked = 0 := by
  cases hasMiddlewareCallback <;> decide

/-! ## Signal handling and the cleanup path
(index.js lines 1789-1822 and 1871-1876)

After a successful init, `initService` has installed: a `cleanup`
handler that runs `this._shutdown().then(() => process.exit(1)).catch(() => process.exit(1))`;
a first SIGTERM handler and a SIGINT handler that log at fatal level
and emit `cleanup`; and a second SIGTERM handler that logs and calls
`this.server.close(() => process.exit(0))`.  Signal delivery runs the
handlers for that signal in registration order; the callbacks
registered by the two `server.close` calls run in registration order
when the listener finishes closing; a promise continuation (the
`.then(() => process.exit(1))` of the cleanup path) can only run after
`hydra.shutdown()` settles, hence after the synchronous close
callbacks have all run. -/

/-- Atomic process-level actions on the shutdown paths. -/
inductive Act where
  | logged (type message : String)
  | serverCloseBegin
  | hydraShutdownBegin
  | procExit (code : Nat)
deriving DecidableEq, Repr

/-- Runs a straight-line action script: `process.exit` terminates the
process immediately, so nothing after the first `procExit` executes. -/
def runActs : List Act → List Act
  | [] => []
  | .procExit k :: _ => [.procExit k]
  | .logged t m :: rest => .logged t m :: runActs rest
  | .serverCloseBegin :: rest => .serverCloseBegin :: runActs rest
  | .hydraShutdownBegin :: rest => .hydraShutdownBegin :: runActs rest

/-- Exit status of a script run: the code of the first `procExit`
reached, if any. -/
def exitCode : List Act → Option Nat
  | [] => none
  | .procExit k :: _ => some k
  | _ :: rest => exitCode rest

/-- Action script for a SIGINT delivered after successful init: the
SIGINT handler logs and emits `cleanup`; the cleanup handler calls
`_shutdown`, whose close callback logs and starts `hydra.shutdown()`;
once that settles the cleanup continuation exits with code 1 (both the
fulfillment and the rejection arm exit 1). -/
def sigintScript : List Act :=
  [.logged "fatal" "Received SIGINT",
    .serverCloseBegin,
    .logged "error" "Service is shutting down.",
    .hydraShutdownBegin,
    .procExit 1]

/-- Action script for a SIGTERM delivered after successful init: the
first SIGTERM handler logs and emits `cleanup` (so `_shutdown` begins
closing the server and registers its close callback); the second
SIGTERM handler logs and calls `server.close(() => process.exit(0))`,
registering a second close callback.  When the listener finishes
closing, the first callback logs and starts `hydra.shutdown()`, then
the second callback exits with code 0; the cleanup continuation that
would exit with code 1 could only run after `hydra.shutdown()`
settles, and is therefore never reached. -/
def sigtermScript : List Act :=
  [.logged "fatal" "Received SIGTERM",
    .serverCloseBegin,
    .logged "error" "recieved SIGTERM - attempting graceful shutdown",
    .serverCloseBegin,
    .logged "error" "Service is shutting down.",
    .hydraShutdownBegin,
    .procExit 0,
    .procExit 1]

/-- The exit-code property the specification asserts: both termination
signals lead to process exit status 0. -/
def signalsExitZero : Prop :=
  exitCode (runActs sigtermScript) = some 0 ∧
    exitCode (runActs sigintScript) = some 0

/-- C7 counterexample: the SIGINT path routes through the cleanup
handler, whose both arms call `process.exit(1)`, so its exit status is
1, not 0. -/
theorem c7_counterexample : ¬ signalsExitZero := by
  unfold signalsExitZero
  decide

/-- C7 as amended: on either termination signal the listener close is
initiated and `hydra.shutdown()` (discovery deregistration) is
started, but the exit codes differ: SIGTERM exits with status 0 (its
direct close-callback handler fires before the cleanup
continuation), while SIGINT exits with status 1 (the cleanup path
always exits 1). -/
theorem c7_signal_paths :
    (Act.serverCloseBegin ∈ runActs sigintScript ∧
      Act.hydraShutdownBegin ∈ runActs sigintScript ∧
      exitCode (runActs sigintScript) = some 1) ∧
    (Act.serverCloseBegin ∈ runActs sigtermScript ∧
      Act.hydraShutdownBegin ∈ runActs sigtermScript ∧
      exitCode (runActs sigtermScript) = some 0) := by
  decide

/-! ## Route registration (`_registerRoutes`, index.js lines 1932-1948) -/

/-- A bound express route: its path within the router and the keys of
its `methods` object. -/
structure ExpressRoute where
  path : String
  methods : List String
deriving DecidableEq, Repr

/-- One entry of a router `stack`: router-level middleware appears
with an undefined `route` property, modeled as `none`. -/
structure RouterLayer where
  route : Option ExpressRoute
deriving DecidableEq, Repr

/-- An express router object, reduced to its `stack`. -/
structure Router where
  stack : List RouterLayer
deriving DecidableEq, Repr

/-- Descriptors pushed for one stack entry: nothing for a layer whose
`route` property is undefined, otherwise one
`[method]routePath+route.path` string per key of `route.methods`. -/
def layerDescriptors (routePath : String) (layer : RouterLayer) : List String :=
  match layer.route with
  | none => []
  | some routeInfo =>
    routeInfo.methods.map (fun method => "[" ++ method ++ "]" ++ routePath ++ routeInfo.path)

/-- Embeds the `routesList` accumulation of `_registerRoutes`: the two
nested `forEach` loops push descriptors for every base path and every
stack entry into one shared list. -/
def registerRoutesList (routes : List (String × Router)) : List String :=
  routes.foldl
    (fun acc pr =>
      pr.2.stack.foldl (fun acc2 layer => acc2 ++ layerDescriptors pr.1 layer) acc)
    []

/-- Observable calls of `_registerRoutes`: mounting a router on the
app and the final `hydra.registerRoutes(routesList)` report. -/
inductive RegEv where
  | appUse (routePath : String)
  | hydraRegisterRoutes (routesList : List String)
deriving DecidableEq, Repr

/-- Embeds `HydraExpress._registerRoutes(routes)`: per base path the
router is mounted with `app.use(routePath, routes[routePath])`, and
after the loop the accumulated list is sent, unconditionally, with
`hydra.registerRoutes(routesList)`. -/
def _registerRoutes (routes : List (String × Router)) : List RegEv :=
  routes.map (fun pr => RegEv.appUse pr.1) ++
    [RegEv.hydraRegisterRoutes (registerRoutesList routes)]

/-- Capability list as the specification words it: the flat list of
`[method]basePath+routePath` descriptors over every bound route of
every router, skipping stack entries without a bound route. -/
def specCapabilityList (routes : List (String × Router)) : List String :=
  routes.flatMap (fun pr =>
    pr.2.stack.flatMap (fun layer =>
      match layer.route with
      | none => []
      | some routeInfo =>
        routeInfo.methods.map
          (fun method => "[" ++ method ++ "]" ++ pr.1 ++ routeInfo.path)))

/-- Recognizes the discovery-client report call. -/
def isRegisterRoutesEv : RegEv → Bool
  | .hydraRegisterRoutes _ => true
  | _ => false

/-- Folding with list append starting from `acc` prepends `acc` to the
flat list. -/
theorem foldl_append_bind {α β : Type} (g : α → List β) (l : List α) :
    ∀ acc : List β, l.foldl (fun a x => a ++ g x) acc = acc ++ l.flatMap g := by
  induction l with
  | nil => intro acc; simp
  | cons x xs ih => intro acc; simp [List.foldl_cons, ih, List.flatMap_cons, List.append_assoc]

/-- C8: the list `_registerRoutes` reports to the discovery client is
exactly the flat descriptor list over every bound route at call time
(skipping pass-through middleware layers), and exactly one
`hydra.registerRoutes` call is made, carrying that list. -/
theorem c8_capability_report (routes : List (String × Router)) :
    registerRoutesList routes = specCapabilityList routes ∧
    RegEv.hydraRegisterRoutes (specCapabilityList routes) ∈ _registerRoutes routes ∧
    ((_registerRoutes routes).filter isRegisterRoutesEv).length = 1 := by
  have hstep : (fun (acc : List String) (pr : String × Router) =>
      pr.2.stack.foldl (fun acc2 layer => acc2 ++ layerDescriptors pr.1 layer) acc) =
      fun acc pr => acc ++ pr.2.stack.flatMap (layerDescriptors pr.1) := by
    funext acc pr
    exact foldl_append_bind (layerDescriptors pr.1) pr.2.stack acc
  have hlist : registerRoutesList routes = specCapabilityList routes := by
    rw [registerRoutesList, hstep,
      foldl_append_bind (fun pr => pr.2.stack.flatMap (layerDescriptors pr.1)) routes []]
    rfl
  refine ⟨hlist, ?_, ?_⟩
  · rw [_registerRoutes, hlist]
    simp
  · rw [_registerRoutes]
    rw [List.filter_append]
    have hmap : (routes.map (fun pr => RegEv.appUse pr.1)).filter isRegisterRoutesEv = [] := by
      rw [List.filter_eq_nil_iff]
      intro ev hev
      rcases List.mem_map.mp hev with ⟨pr, _, rfl⟩
      simp [isRegisterRoutesEv]
    rw [hmap]
    rfl

/-! ## getRuntimeConfig (index.js lines 1687-1689) -/

/-- A JavaScript value stored in an object property: a primitive, a
reference to another object, or `undefined`. -/
inductive JVal where
  | prim (s : String)
  | ref (r : Nat)
  | jsUndefined
deriving DecidableEq, Repr

/-- An object: its own enumerable properties in insertion order. -/
abbrev JObj := List (String × JVal)

/-- A heap of JavaScript objects: references below `next` are live. -/
structure JHeap where
  objs : Nat → JObj
  next : Nat

/-- Property read, `undefined` when the key is absent. -/
def getField (o : JObj) (key : String) : JVal :=
  match o.find? (fun kv => kv.1 == key) with
  | some kv => kv.2
  | none => .jsUndefined

/-- Property write: overwrite in place when present, append when new. -/
def setField (o : JObj) (key : String) (v : JVal) : JObj :=
  if o.any (fun kv => kv.1 == key) then
    o.map (fun kv => if kv.1 == key then (key, v) else kv)
  else o ++ [(key, v)]

/-- Assignment `obj.key = v` through reference `r`. -/
def heapWrite (h : JHeap) (r : Nat) (key : String) (v : JVal) : JHeap :=
  { h with objs := fun n => if n = r then setField (h.objs r) key v else h.objs n }

/-- Embeds `getRuntimeConfig()`, i.e. `Object.assign({}, this.config)`
where `config` is the reference held in `this.config`: allocate one
fresh object carrying the same top-level key/value pairs; a value that
is a reference to a nested object is copied as that same reference. -/
def getRuntimeConfig (h : JHeap) (config : Nat) : JHeap × Nat :=
  ({ objs := fun n => if n = h.next then h.objs config else h.objs n,
     next := h.next + 1 },
   h.next)

/-- C9: `getRuntimeConfig` returns a fresh shallow copy: the returned
reference differs from the stored one; writing any top-level key
through the returned reference leaves every field of the stored config
unchanged; every field of the copy (in particular `hydra`) holds the
very same value as the stored config, so a nested object reference is
shared, not cloned; and exactly one new object is allocated. -/
theorem c9_shallow_copy (h : JHeap) (config : Nat) (hvalid : config < h.next)
    (key : String) (v : JVal) :
    (getRuntimeConfig h config).2 ≠ config ∧
    (∀ k, getField
        ((heapWrite (getRuntimeConfig h config).1 (getRuntimeConfig h config).2 key v).objs
          config) k =
      getField (h.objs config) k) ∧
    (∀ k, getField ((getRuntimeConfig h config).1.objs (getRuntimeConfig h config).2) k =
      getField (h.objs config) k) ∧
    (getRuntimeConfig h config).1.next = h.next + 1 := by
  have hne : h.next ≠ config := by omega
  refine ⟨fun hc => hne hc, ?_, ?_, rfl⟩
  · intro k
    have hobj : (heapWrite (getRuntimeConfig h config).1 (getRuntimeConfig h config).2 key
        v).objs config = h.objs config := by
      simp [heapWrite, getRuntimeConfig, Ne.symm hne, hne]
    rw [hobj]
  · intro k
    have hobj : (getRuntimeConfig h config).1.objs (getRuntimeConfig h config).2 =
        h.objs config := by
      simp [getRuntimeConfig]
    rw [hobj]

/-- C9 witness: a two-object heap whose config object holds a `hydra`
reference and an `environment` primitive; after writing `environment`
on the copy, the stored config still reads the original values and
the copy shares the `hydra` reference. -/
theorem c9_shallow_copy_witness :
    getField
        ((heapWrite
            (getRuntimeConfig
              ⟨fun n => if n = 0 then [("hydra", JVal.ref 1), ("environment", JVal.prim "development")]
                else if n = 1 then [("serviceName", JVal.prim "svc")] else [], 2⟩ 0).1
            (getRuntimeConfig
              ⟨fun n => if n = 0 then [("hydra", JVal.ref 1), ("environment", JVal.prim "development")]
                else if n = 1 then [("serviceName", JVal.prim "svc")] else [], 2⟩ 0).2
            "environment" (JVal.prim "production")).objs 0) "environment" =
      JVal.prim "development" := by
  exact ((c9_shallow_copy
    ⟨fun n => if n = 0 then [("hydra", JVal.ref 1), ("environment", JVal.prim "development")]
      else if n = 1 then [("serviceName", JVal.prim "svc")] else [], 2⟩ 0 (by decide)
    "environment" (JVal.prim "production")).2.1 "environment").trans (by decide)

end HydraExpress
